import Mathlib

/-!
Shallow embedding of the snorkel-conditions-checker core pipeline.

Numbers that the TypeScript source handles as finite IEEE doubles are
modelled as rationals (`ℚ`); timestamps (epoch milliseconds obtained from
`Date.parse` / `Date.now()`) are modelled as integers (`ℤ`).  A value that
can be `null`/`undefined`/non-finite in a JS numeric slot is modelled as
`Option ℚ` with `none` standing for "not a finite number".  Geographic
distances go through real trigonometric functions and are modelled over `ℝ`.
Network effects are modelled by passing the outcome of each upstream call
explicitly as data; a thrown JS error is `Except.error` carrying the
message string.
-/

/-- Tide motion classification (src/conditions.ts `TideState`). -/
inductive TideState
  | low
  | rising
  | high
  | falling
  | unknown
deriving DecidableEq, Repr

/-- src/conditions.ts `WaveCondition`. -/
structure WaveCondition where
  heightMeters : Option ℚ
  periodSeconds : Option ℚ
  directionDegrees : Option ℚ
deriving DecidableEq, Repr

/-- src/conditions.ts `WindCondition`. -/
structure WindCondition where
  speedMetersPerSecond : Option ℚ
  gustMetersPerSecond : Option ℚ
  directionDegrees : Option ℚ
deriving DecidableEq, Repr

/-- src/conditions.ts `TideCondition`. -/
structure TideCondition where
  heightMeters : Option ℚ
  state : TideState
deriving DecidableEq, Repr

/-- src/conditions.ts `WeatherCondition`. -/
structure WeatherCondition where
  temperatureC : Option ℚ
  precipitationMmPerHour : Option ℚ
  cloudCoverPercent : Option ℚ
deriving DecidableEq, Repr

/-- src/conditions.ts `VisibilityCondition`. -/
structure VisibilityCondition where
  rangeMeters : Option ℚ
deriving DecidableEq, Repr

/-- src/conditions.ts `SnorkelConditions`. -/
structure SnorkelConditions where
  waves : WaveCondition
  wind : WindCondition
  tide : TideCondition
  weather : WeatherCondition
  visibility : Option VisibilityCondition
deriving DecidableEq, Repr

/-- src/types.ts `TidePoint` (time as epoch milliseconds). -/
structure TidePoint where
  time : ℤ
  heightMeters : ℚ
deriving DecidableEq, Repr

/-- The JS nullish-coalescing operator `a ?? b` on nullable numbers:
the first operand that is not null/undefined wins, even when it is `0`. -/
def jsCoalesce (a b : Option ℚ) : Option ℚ :=
  match a with
  | some v => some v
  | none => b

namespace openMeteo

/-- Hourly series returned by Open-Meteo (src/services/openMeteo.ts
`OpenMeteoSeries`).  `time` holds parsed timestamps; each value array may
contain nulls (non-finite slots), hence `Option ℚ` entries.  A field that is
absent from the payload is modelled as the empty list, which is exactly how
the source consumes it (`series.field ?? []`). -/
structure OpenMeteoSeries where
  time : List ℤ
  wave_height : List (Option ℚ) := []
  wave_period : List (Option ℚ) := []
  wave_direction : List (Option ℚ) := []
  swell_wave_height : List (Option ℚ) := []
  swell_wave_period : List (Option ℚ) := []
  swell_wave_direction : List (Option ℚ) := []
  wind_speed_10m : List (Option ℚ) := []
  wind_gusts_10m : List (Option ℚ) := []
  wind_direction_10m : List (Option ℚ) := []
  precipitation : List (Option ℚ) := []
  cloud_cover : List (Option ℚ) := []
deriving DecidableEq, Repr

/-- A series with no samples at all. -/
def emptySeries : OpenMeteoSeries := ⟨[], [], [], [], [], [], [], [], [], [], [], []⟩

end openMeteo

/-- The `for` loop shared by the nearest-sample scans: walk the remaining
timestamps (current index `i`), keeping the best index `bi` and its
absolute delta `bd`, updating only on a strictly smaller delta. -/
def nearestScan (now : ℤ) : List ℤ → ℕ → ℕ → ℤ → ℕ
  | [], _, bi, _ => bi
  | t :: rest, i, bi, bd =>
    if |t - now| < bd then nearestScan now rest (i + 1) i |t - now|
    else nearestScan now rest (i + 1) bi bd

/-- Index of the timestamp closest to `now` (first-encountered minimum),
as computed by the scan loops in `pickNearestValue` and both tide
adapters.  Returns `0` for the empty list (callers guard emptiness). -/
def nearestIdx (now : ℤ) (times : List ℤ) : ℕ :=
  match times with
  | [] => 0
  | t0 :: rest => nearestScan now rest 1 0 |t0 - now|

namespace openMeteo

/-- src/services/openMeteo.ts `pickNearestValue`: `null` on an empty
timestamp or value list, otherwise the value at the nearest-to-now index,
nulled out when that slot is not a finite number. -/
def pickNearestValue (times : List ℤ) (values : List (Option ℚ)) (now : ℤ) :
    Option ℚ :=
  if times.isEmpty || values.isEmpty then none
  else
    match values.get? (nearestIdx now times) with
    | some (some q) => some q
    | _ => none

/-- src/services/openMeteo.ts `getTideState`: the magnitude-based fallback
heuristic used when the snapshot has no explicit tide state. -/
def getTideState (value : Option ℚ) : TideState :=
  match value with
  | none => .unknown
  | some v =>
    if v > 0.6 then .high
    else if v > 0.1 then .rising
    else if v > -0.2 then .falling
    else .low

/-- src/services/openMeteo.ts `buildConditions`: align every series to
`now` and assemble the snapshot.  `tide` is the active tide adapter's
result (or `none` when no adapter produced data). -/
def buildConditions (marineWaves : OpenMeteoSeries) (weather : OpenMeteoSeries)
    (tide : Option TideCondition) (now : ℤ) : SnorkelConditions :=
  let waveHeight := pickNearestValue marineWaves.time marineWaves.wave_height now
  let wavePeriod := pickNearestValue marineWaves.time marineWaves.wave_period now
  let waveDirection := pickNearestValue marineWaves.time marineWaves.wave_direction now
  let swellHeight := pickNearestValue marineWaves.time marineWaves.swell_wave_height now
  let swellPeriod := pickNearestValue marineWaves.time marineWaves.swell_wave_period now
  let swellDirection := pickNearestValue marineWaves.time marineWaves.swell_wave_direction now
  let tideHeight := tide.bind (fun t => t.heightMeters)
  let tideState := (tide.map (fun t => t.state)).getD .unknown
  let windSpeed := pickNearestValue weather.time weather.wind_speed_10m now
  let windGust := pickNearestValue weather.time weather.wind_gusts_10m now
  let windDirection := pickNearestValue weather.time weather.wind_direction_10m now
  let precipitation := pickNearestValue weather.time weather.precipitation now
  let cloudCover := pickNearestValue weather.time weather.cloud_cover now
  let combinedWaveHeight :=
    match waveHeight with
    | some h => some h
    | none => swellHeight
  { waves :=
      { heightMeters := combinedWaveHeight
        periodSeconds := jsCoalesce wavePeriod swellPeriod
        directionDegrees := jsCoalesce waveDirection swellDirection }
    wind :=
      { speedMetersPerSecond := windSpeed
        gustMetersPerSecond := windGust
        directionDegrees := windDirection }
    tide :=
      { heightMeters := tideHeight
        state := if tideState = .unknown then getTideState tideHeight else tideState }
    weather :=
      { temperatureC := none
        precipitationMmPerHour := precipitation
        cloudCoverPercent := cloudCover }
    visibility := none }

end openMeteo

namespace stormglass

/-- src/services/stormglass.ts `StormglassTidePoint` (time parsed to epoch
milliseconds, sea level in the `sg` field). -/
structure StormglassTidePoint where
  time : ℤ
  sg : ℚ
deriving DecidableEq, Repr

/-- src/services/stormglass.ts `getTideState`: the 3-point rule at the
pivot sample, over the `sg` height field. -/
def getTideState (previous : Option StormglassTidePoint)
    (current : StormglassTidePoint) (next : Option StormglassTidePoint) :
    TideState :=
  match previous, next with
  | some p, some n =>
    if current.sg > p.sg ∧ current.sg > n.sg then .high
    else if current.sg < p.sg ∧ current.sg < n.sg then .low
    else if n.sg > current.sg then .rising
    else if n.sg < current.sg then .falling
    else .unknown
  | _, _ => .unknown

/-- `[...data.data].sort((a, b) => timeA - timeB)`: stable ascending sort
by parsed timestamp. -/
def sortByTime (points : List StormglassTidePoint) : List StormglassTidePoint :=
  points.mergeSort (fun a b => a.time ≤ b.time)

/-- Pivot selection from `fetchTideConditions`: on the chronologically
sorted series, the sample nearest to `now` together with its immediate
neighbours (`none` at a series boundary). -/
def pivot (points : List StormglassTidePoint) (now : ℤ) :
    Option (Option StormglassTidePoint × StormglassTidePoint × Option StormglassTidePoint) :=
  match sortByTime points with
  | [] => none
  | p0 :: rest =>
    let sorted := p0 :: rest
    let bi := nearestIdx now (sorted.map (fun p => p.time))
    let current := sorted.getD bi p0
    let previous := if 0 < bi then some (sorted.getD (bi - 1) p0) else none
    let next := if bi < sorted.length - 1 then some (sorted.getD (bi + 1) p0) else none
    some (previous, current, next)

/-- The tide state this adapter reports for a raw series: classify the
pivot sample by the 3-point rule. -/
def stateAt (points : List StormglassTidePoint) (now : ℤ) : TideState :=
  match pivot points now with
  | none => .unknown
  | some (previous, current, next) => getTideState previous current next

/-- src/services/stormglass.ts `TideDataResult`, reduced to the fields the
pipeline consumes (`condition` and the normalized `details.points`;
station/datum/source provenance strings are presentation metadata). -/
structure TideDataResult where
  condition : TideCondition
  points : List TidePoint
deriving DecidableEq, Repr

/-- Successful-path result assembly from `fetchTideConditions` for a
non-empty payload.  Heights are rationals here, so the source's
`Number.isFinite` guards (which drop NaN/Infinity slots) are always true:
`heightMeters` is the pivot height and `points` the whole sorted series. -/
def buildResult (points : List StormglassTidePoint) (now : ℤ) : TideDataResult :=
  { condition :=
      { heightMeters := (pivot points now).map (fun t => t.2.1.sg)
        state := stateAt points now }
    points := (sortByTime points).map (fun p => ⟨p.time, p.sg⟩) }

/-- Parsed body of the Stormglass response: either the JSON parse failed
(`response.json()` rejects — this adapter has no catch around it), or it
parsed with an optional `data` array. -/
inductive SgBody
  | unparsable (msg : String)
  | parsed (data : Option (List StormglassTidePoint))
deriving DecidableEq, Repr

/-- Outcome of the network call: the fetch itself rejected, or a response
arrived with an ok-flag and a body. -/
inductive SgFetch
  | reject (msg : String)
  | respond (ok : Bool) (body : SgBody)
deriving DecidableEq, Repr

/-- Environment of one Stormglass call: the configured credential (if any)
and the outcome of the network round trip. -/
structure SgEnv where
  apiKey : Option String
  fetchOutcome : SgFetch
deriving DecidableEq, Repr

/-- src/services/stormglass.ts `fetchTideConditions`: missing credential,
non-success response, and missing/empty payload all yield `none` (no tide
data); a rejected fetch or an unparsable body propagates as a thrown
error. -/
def fetchTideConditions (env : SgEnv) (now : ℤ) :
    Except String (Option TideDataResult) :=
  match env.apiKey with
  | none => .ok none
  | some _ =>
    match env.fetchOutcome with
    | .reject msg => .error msg
    | .respond ok body =>
      if !ok then .ok none
      else
        match body with
        | .unparsable msg => .error msg
        | .parsed none => .ok none
        | .parsed (some points) =>
          if points.isEmpty then .ok none
          else .ok (some (buildResult points now))

end stormglass

namespace worldTides

/-- src/services/worldTides.ts `WorldTidesHeightPoint`: optional epoch
seconds `dt`, optional ISO `date` (modelled by its parsed epoch
milliseconds), and a height. -/
structure WorldTidesHeightPoint where
  dt : Option ℤ
  dateMs : Option ℤ
  height : ℚ
deriving DecidableEq, Repr

/-- src/services/worldTides.ts `getTideState`: the 3-point rule at the
pivot sample, over the `height` field. -/
def getTideState (previous : Option WorldTidesHeightPoint)
    (current : WorldTidesHeightPoint) (next : Option WorldTidesHeightPoint) :
    TideState :=
  match previous, next with
  | some p, some n =>
    if current.height > p.height ∧ current.height > n.height then .high
    else if current.height < p.height ∧ current.height < n.height then .low
    else if n.height > current.height then .rising
    else if n.height < current.height then .falling
    else .unknown
  | _, _ => .unknown

/-- src/services/worldTides.ts `toIsoTimestamp`, composed with date
parsing: prefer the explicit `date`, then `dt` seconds scaled to
milliseconds, then the current instant. -/
def toTimeMs (now : ℤ) (p : WorldTidesHeightPoint) : ℤ :=
  match p.dateMs with
  | some d => d
  | none =>
    match p.dt with
    | some s => s * 1000
    | none => now

/-- `[...data.heights].sort(...)`: stable ascending sort by resolved
timestamp. -/
def sortByTime (now : ℤ) (points : List WorldTidesHeightPoint) :
    List WorldTidesHeightPoint :=
  points.mergeSort (fun a b => toTimeMs now a ≤ toTimeMs now b)

/-- Pivot selection from this adapter's `fetchTideConditions` body. -/
def pivot (points : List WorldTidesHeightPoint) (now : ℤ) :
    Option (Option WorldTidesHeightPoint × WorldTidesHeightPoint × Option WorldTidesHeightPoint) :=
  match sortByTime now points with
  | [] => none
  | p0 :: rest =>
    let sorted := p0 :: rest
    let bi := nearestIdx now (sorted.map (toTimeMs now))
    let current := sorted.getD bi p0
    let previous := if 0 < bi then some (sorted.getD (bi - 1) p0) else none
    let next := if bi < sorted.length - 1 then some (sorted.getD (bi + 1) p0) else none
    some (previous, current, next)

/-- The tide state this adapter reports for a raw series. -/
def stateAt (points : List WorldTidesHeightPoint) (now : ℤ) : TideState :=
  match pivot points now with
  | none => .unknown
  | some (previous, current, next) => getTideState previous current next

end worldTides

namespace rating

/-- src/ratingRubric.ts `RatingTier`. -/
inductive RatingTier
  | poor
  | ok
  | good
  | excellent
deriving DecidableEq, Repr

/-- src/utils/rating.ts `tierScore`: numeric weight of each tier. -/
def tierScore : RatingTier → ℚ
  | .poor => 0
  | .ok => 1
  | .good => 2
  | .excellent => 3

/-- src/ratingRubric.ts `LowerIsBetterRule`. -/
structure LowerIsBetterRule where
  excellentMax : ℚ
  goodMax : ℚ
  okMax : ℚ
deriving DecidableEq, Repr

/-- src/ratingRubric.ts `HigherIsBetterRule`. -/
structure HigherIsBetterRule where
  excellentMin : ℚ
  goodMin : ℚ
  okMin : ℚ
deriving DecidableEq, Repr

/-- src/ratingRubric.ts `NumericThresholdRule`: the `direction` tag of the
source discriminates the two record shapes. -/
inductive NumericThresholdRule
  | lower (r : LowerIsBetterRule)
  | higher (r : HigherIsBetterRule)
deriving DecidableEq, Repr

/-- src/utils/rating.ts `scoreNumeric`: null yields unscored; otherwise
check the cut points from best to worst. -/
def scoreNumeric (value : Option ℚ) (rule : NumericThresholdRule) :
    Option RatingTier :=
  match value with
  | none => none
  | some v =>
    match rule with
    | .lower r =>
      if v ≤ r.excellentMax then some .excellent
      else if v ≤ r.goodMax then some .good
      else if v ≤ r.okMax then some .ok
      else some .poor
    | .higher r =>
      if v ≥ r.excellentMin then some .excellent
      else if v ≥ r.goodMin then some .good
      else if v ≥ r.okMin then some .ok
      else some .poor

/-- src/ratingRubric.ts `CategoricalThresholdRule<TideState>`. -/
structure CategoricalThresholdRule where
  tiers : RatingTier → List TideState
  excluded : List TideState

/-- src/ratingRubric.ts `ratingRubric`, grouped as in the source. -/
structure WavesRubric where
  heightMeters : NumericThresholdRule

structure WindRubric where
  speedMetersPerSecond : NumericThresholdRule
  gustMetersPerSecond : NumericThresholdRule

structure TideRubric where
  state : CategoricalThresholdRule

structure WeatherRubric where
  precipitationMmPerHour : NumericThresholdRule
  cloudCoverPercent : NumericThresholdRule

structure VisibilityRubric where
  rangeMeters : NumericThresholdRule

structure RatingRubric where
  waves : WavesRubric
  wind : WindRubric
  tide : TideRubric
  weather : WeatherRubric
  visibility : VisibilityRubric

/-- src/ratingRubric.ts `ratingRubric`: the static configuration values. -/
def ratingRubric : RatingRubric :=
  { waves := ⟨.lower ⟨0.5, 1.0, 1.5⟩⟩
    wind :=
      { speedMetersPerSecond := .lower ⟨3, 5, 7.5⟩
        gustMetersPerSecond := .lower ⟨5, 7.5, 10⟩ }
    tide :=
      ⟨{ tiers := fun t =>
           match t with
           | .excellent => [.high]
           | .good => [.rising]
           | .ok => [.falling]
           | .poor => [.low]
         excluded := [.unknown] }⟩
    weather :=
      { precipitationMmPerHour := .lower ⟨0.1, 0.5, 2⟩
        cloudCoverPercent := .lower ⟨20, 50, 80⟩ }
    visibility := ⟨.higher ⟨20, 10, 5⟩⟩ }

/-- The numeric threshold rules of the rubric (every rule that is not the
categorical tide rule). -/
def rubricNumericRules : List NumericThresholdRule :=
  [ratingRubric.waves.heightMeters,
   ratingRubric.wind.speedMetersPerSecond,
   ratingRubric.wind.gustMetersPerSecond,
   ratingRubric.weather.precipitationMmPerHour,
   ratingRubric.weather.cloudCoverPercent,
   ratingRubric.visibility.rangeMeters]

/-- Whether a rule is of the lower-is-better direction. -/
def isLowerRule : NumericThresholdRule → Bool
  | .lower _ => true
  | .higher _ => false

/-- One entry handed to the weighted combination: a (possibly unscored)
tier and its importance weight. -/
structure WeightedEntry where
  tier : Option RatingTier
  weight : ℚ
deriving DecidableEq, Repr

/-- src/utils/rating.ts `combineWeightedRatings`: accumulate total weight
and weighted score over the scored, positively-weighted entries, then map
the weighted mean back to a tier (neutral `ok` when nothing scored). -/
def combineWeightedRatings (entries : List WeightedEntry) : RatingTier :=
  let acc := entries.foldl
    (fun (tw : ℚ × ℚ) e =>
      match e.tier with
      | none => tw
      | some t => if e.weight ≤ 0 then tw else (tw.1 + e.weight, tw.2 + tierScore t * e.weight))
    (0, 0)
  if acc.1 = 0 then .ok
  else
    let average := acc.2 / acc.1
    if average ≥ 2.5 then .excellent
    else if average ≥ 1.5 then .good
    else if average ≥ 0.75 then .ok
    else .poor

/-- Spec-side view of the combination: the scored entries, as pairs of a
tier and its weight. -/
def scoredEntries (entries : List WeightedEntry) : List (RatingTier × ℚ) :=
  entries.filterMap (fun e => e.tier.map (fun t => (t, e.weight)))

/-- Spec-side view of the cut points mapping a weighted mean to a tier. -/
def tierOfAverage (avg : ℚ) : RatingTier :=
  if avg ≥ 2.5 then .excellent
  else if avg ≥ 1.5 then .good
  else if avg ≥ 0.75 then .ok
  else .poor

end rating

/-- src/types.ts `GeoPoint` (degrees; real-valued). -/
structure GeoPoint where
  latitude : ℝ
  longitude : ℝ

/-- src/types.ts `LocationOption`. -/
structure LocationOption where
  id : String
  name : String
  placeName : String
  coordinates : GeoPoint

/-- src/types.ts `SpotSuggestion`: a location plus its distance from the
search origin. -/
structure SpotSuggestion extends LocationOption where
  distanceKm : ℝ

namespace geocoding

/-- JS `Math.atan2(y, x)` on finite inputs (signed zeros collapsed to 0). -/
noncomputable def atan2 (y x : ℝ) : ℝ :=
  if 0 < x then Real.arctan (y / x)
  else if x < 0 then
    (if 0 ≤ y then Real.arctan (y / x) + Real.pi else Real.arctan (y / x) - Real.pi)
  else
    (if 0 < y then Real.pi / 2 else if y < 0 then -(Real.pi / 2) else 0)

/-- src/services/geocoding.ts `distanceInKm`: spherical law of haversines
with Earth radius 6371 km. -/
noncomputable def distanceInKm (a b : GeoPoint) : ℝ :=
  let radiusKm : ℝ := 6371
  let toRadians : ℝ → ℝ := fun v => v * Real.pi / 180
  let dLat := toRadians (b.latitude - a.latitude)
  let dLon := toRadians (b.longitude - a.longitude)
  let lat1 := toRadians a.latitude
  let lat2 := toRadians b.latitude
  let haversine :=
    Real.sin (dLat / 2) * Real.sin (dLat / 2) +
      Real.cos lat1 * Real.cos lat2 * Real.sin (dLon / 2) * Real.sin (dLon / 2)
  radiusKm * 2 * atan2 (Real.sqrt haversine) (Real.sqrt (1 - haversine))

end geocoding

namespace app

/-- src/App.tsx `hasConditionsData`: `Boolean` of a nullish-coalescing
chain over six of the snapshot's numeric fields — the first non-null field
in that order decides, and decides `false` when it is `0`. -/
def hasConditionsData (c : SnorkelConditions) : Bool :=
  match jsCoalesce c.waves.heightMeters
      (jsCoalesce c.waves.periodSeconds
        (jsCoalesce c.wind.speedMetersPerSecond
          (jsCoalesce c.weather.precipitationMmPerHour
            (jsCoalesce c.weather.cloudCoverPercent c.tide.heightMeters)))) with
  | some v => v != 0
  | none => false

/-- Spec-side view of the probed chain: the first non-null value among the
six fields `hasConditionsData` consults, in source order. -/
def probedFirst (c : SnorkelConditions) : Option ℚ :=
  List.findSome? (fun x => x)
    [c.waves.heightMeters, c.waves.periodSeconds, c.wind.speedMetersPerSecond,
     c.weather.precipitationMmPerHour, c.weather.cloudCoverPercent,
     c.tide.heightMeters]

/-- src/App.tsx `findNearbySpotsWithData`, candidate preparation: drop the
origin, attach distances, sort ascending by distance (JS `sort` is
stable). -/
noncomputable def sortedCandidates (origin : LocationOption)
    (fallback : List LocationOption) : List SpotSuggestion :=
  ((fallback.filter (fun o => o.id != origin.id)).map
      (fun o => ⟨o, geocoding.distanceInKm origin.coordinates o.coordinates⟩)).mergeSort
    (fun a b => decide (a.distanceKm ≤ b.distanceKm))

/-- src/App.tsx `findNearbySpotsWithData`, probe loop: a failed probe is
skipped (`continue`), a successful probe with data is collected, and the
loop breaks once three suggestions are collected. -/
def probeLoop (probe : GeoPoint → Except String SnorkelConditions) :
    List SpotSuggestion → List SpotSuggestion → List SpotSuggestion
  | [], results => results
  | c :: rest, results =>
    match probe c.coordinates with
    | .error _ => probeLoop probe rest results
    | .ok conds =>
      let results2 := if hasConditionsData conds then results ++ [c] else results
      if 3 ≤ results2.length then results2 else probeLoop probe rest results2

/-- src/App.tsx `findNearbySpotsWithData`.  `probe` is the outcome of
`fetchConditions` at each coordinate (the network environment made
explicit), returning only the snapshot the loop inspects. -/
noncomputable def findNearbySpotsWithData
    (probe : GeoPoint → Except String SnorkelConditions)
    (origin : LocationOption) (fallback : List LocationOption) :
    List SpotSuggestion :=
  probeLoop probe (sortedCandidates origin fallback) []

/-- Whether a probe of this candidate succeeds with a non-empty snapshot. -/
def probeHasData (probe : GeoPoint → Except String SnorkelConditions)
    (c : SpotSuggestion) : Bool :=
  match probe c.coordinates with
  | .ok conds => hasConditionsData conds
  | .error _ => false

end app

namespace openMeteo

/-- The `hourly` field list of the full marine request. -/
def marineHourlyFull : String :=
  "wave_height,wave_period,wave_direction,swell_wave_height,swell_wave_period,swell_wave_direction"

/-- The `hourly` field list of the reduced (no-swell) marine retry. -/
def marineHourlyReduced : String := "wave_height,wave_period,wave_direction"

/-- Whether `needle` occurs as a contiguous run inside `hay`. -/
def containsToken (needle : List Char) : List Char → Bool
  | [] => needle.isEmpty
  | c :: rest => needle.isPrefixOf (c :: rest) || containsToken needle rest

/-- The `/swell/i.test(error.message)` check: case-insensitive substring
(the message's characters lowered one by one). -/
def containsSwell (s : String) : Bool :=
  containsToken "swell".data (s.data.map Char.toLower)

/-- Environment of one `fetchConditions` call: the outcome each upstream
request would have (the reduced marine retry outcome is consulted only
when that request is actually issued). -/
structure AggEnv where
  marineFirst : Except String OpenMeteoSeries
  marineSecond : Except String OpenMeteoSeries
  weather : Except String OpenMeteoSeries
  tideEnv : stormglass.SgEnv

/-- The marine fetch with its swell retry (src/services/openMeteo.ts
`fetchConditions`, first statement): returns the list of issued marine
requests (identified by their `hourly` field list) and the final
outcome. -/
def marineFetch (env : AggEnv) : List String × Except String OpenMeteoSeries :=
  match env.marineFirst with
  | .ok s => ([marineHourlyFull], .ok s)
  | .error e =>
    if containsSwell e then ([marineHourlyFull, marineHourlyReduced], env.marineSecond)
    else ([marineHourlyFull], .error e)

/-- src/types.ts `ConditionsResponse`, reduced to the data the pipeline
consumes (the snapshot and the optional raw tide series; per-source
provenance records are display metadata). -/
structure ConditionsResponse where
  conditions : SnorkelConditions
  tidePoints : Option (List TidePoint)

/-- src/services/openMeteo.ts `fetchConditions`: marine fetch (with swell
retry) first — its failure propagates; then weather and tide settle
together (`Promise.all`; when both fail the model surfaces the weather
error, matching the rejection JS observes first in source order), with a
tide-adapter throw also rejecting the whole aggregation.  On success the
snapshot is assembled by `buildConditions`.  Alongside the outcome, the
list of issued marine requests is returned. -/
def fetchConditions (env : AggEnv) (now : ℤ) :
    List String × Except String ConditionsResponse :=
  let m := marineFetch env
  match m.2 with
  | .error e => (m.1, .error e)
  | .ok marineWaves =>
    match env.weather with
    | .error e => (m.1, .error e)
    | .ok weather =>
      match stormglass.fetchTideConditions env.tideEnv now with
      | .error e => (m.1, .error e)
      | .ok tideData =>
        (m.1,
         .ok
           { conditions :=
               buildConditions marineWaves weather
                 (tideData.map (fun t => t.condition)) now
             tidePoints := tideData.map (fun t => t.points) })

end openMeteo

/-- Transcription of the spec's ordered 3-point decision list (§4.1): the
shared classification rule both tide adapters are claimed to implement,
over bare heights. -/
def specTideRule (previous : Option ℚ) (current : ℚ) (next : Option ℚ) :
    TideState :=
  match previous, next with
  | some p, some n =>
    if current > p ∧ current > n then .high
    else if current < p ∧ current < n then .low
    else if n > current then .rising
    else if n < current then .falling
    else .unknown
  | _, _ => .unknown

/-- Absolute time distance of the `k`-th timestamp from `now`. -/
def deltaAt (times : List ℤ) (now : ℤ) (k : ℕ) : ℤ :=
  |times.getD k 0 - now|

/-- `i` is the first-encountered index of minimal time distance to `now`:
it is in range, minimal, and every earlier index is strictly farther. -/
def isFirstNearest (times : List ℤ) (now : ℤ) (i : ℕ) : Prop :=
  i < times.length ∧
    (∀ j < times.length, deltaAt times now i ≤ deltaAt times now j) ∧
    ∀ j < i, deltaAt times now i < deltaAt times now j

namespace stormglass

/-- The failure modes this adapter converts into "no tide data" (`none`):
missing credential, non-success response, missing or empty payload.  A
rejected fetch or an unparsable body is not among them. -/
def degradesToAbsent (env : SgEnv) : Bool :=
  match env.apiKey with
  | none => true
  | some _ =>
    match env.fetchOutcome with
    | .reject _ => false
    | .respond ok body =>
      if !ok then true
      else
        match body with
        | .unparsable _ => false
        | .parsed none => true
        | .parsed (some points) => points.isEmpty

end stormglass

/-! ## Theorems -/

/-- C5: the fallback heuristic maps every non-null tide height `h` to
exactly one state — high if `h > 0.6`, rising if `0.1 < h ≤ 0.6`, falling
if `−0.2 < h ≤ 0.1`, low if `h ≤ −0.2` — and a null height to unknown. -/
theorem c5_magnitude_heuristic_partitions (h : ℚ) :
    (0.6 < h → openMeteo.getTideState (some h) = .high) ∧
    (0.1 < h ∧ h ≤ 0.6 → openMeteo.getTideState (some h) = .rising) ∧
    (-0.2 < h ∧ h ≤ 0.1 → openMeteo.getTideState (some h) = .falling) ∧
    (h ≤ -0.2 → openMeteo.getTideState (some h) = .low) ∧
    openMeteo.getTideState none = .unknown := by
  refine ⟨fun hh => ?_, fun hh => ?_, fun hh => ?_, fun hh => ?_, rfl⟩ <;>
    simp only [openMeteo.getTideState] <;>
    split_ifs <;>
    first
      | rfl
      | (exfalso
         first
           | linarith [hh.1, hh.2]
           | linarith)

/-- Witness for C5 at height 1. -/
theorem c5_witness :
    (0.6 : ℚ) < 1 ∧ openMeteo.getTideState (some 1) = .high :=
  ⟨by norm_num, (c5_magnitude_heuristic_partitions 1).1 (by norm_num)⟩

/-- C1 fails on the code: a provider result with height 0.7 and explicit
state `unknown` is not preserved — `buildConditions` replaces it by the
magnitude heuristic, yielding `high`. -/
theorem c1_counterexample :
    (openMeteo.buildConditions openMeteo.emptySeries openMeteo.emptySeries
        (some ⟨some (7 / 10), .unknown⟩) 0).tide.state = .high ∧
      TideState.high ≠ TideState.unknown := by
  refine ⟨?_, by decide⟩
  have hval : openMeteo.getTideState (some (7 / 10)) = .high := by
    simp only [openMeteo.getTideState]
    norm_num
  simp [openMeteo.buildConditions, hval]

/-- C1 amended: the magnitude heuristic is applied whenever the snapshot's
tide state would be `unknown` — both when no provider ran and when the
provider returned an explicit `unknown` (then over the provider's height);
a provider state other than `unknown` is preserved. -/
theorem c1_heuristic_on_any_unknown :
    (∀ m w now h (s : TideState), s ≠ .unknown →
      (openMeteo.buildConditions m w (some ⟨h, s⟩) now).tide.state = s) ∧
    (∀ m w now h,
      (openMeteo.buildConditions m w (some ⟨h, .unknown⟩) now).tide.state =
        openMeteo.getTideState h) ∧
    (∀ m w now,
      (openMeteo.buildConditions m w none now).tide.state =
        openMeteo.getTideState none) := by
  refine ⟨fun m w now h s hs => ?_, fun m w now h => ?_, fun m w now => ?_⟩ <;>
    simp [openMeteo.buildConditions]
  intro heq
  exact absurd heq hs

/-- Witness for C1 amended: an explicit `high` from the provider is kept. -/
theorem c1_amended_witness :
    TideState.high ≠ TideState.unknown ∧
    (openMeteo.buildConditions openMeteo.emptySeries openMeteo.emptySeries
        (some ⟨some 1, .high⟩) 0).tide.state = .high :=
  ⟨by decide,
   c1_heuristic_on_any_unknown.1 openMeteo.emptySeries openMeteo.emptySeries 0
     (some 1) .high (by decide)⟩

/-- C3 fails on the code: a snapshot whose only non-null leaf is the wind
gust is treated as empty, because `hasConditionsData` never consults the
gust field. -/
theorem c3_counterexample :
    app.hasConditionsData
        ⟨⟨none, none, none⟩, ⟨none, some 5, none⟩, ⟨none, .unknown⟩,
          ⟨none, none, none⟩, none⟩ = false ∧
      (⟨⟨none, none, none⟩, ⟨none, some 5, none⟩, ⟨none, .unknown⟩,
          ⟨none, none, none⟩, none⟩ : SnorkelConditions).wind.gustMetersPerSecond ≠
        none := by
  constructor
  · decide
  · decide

/-- C3 amended: a snapshot is treated as empty iff, among the six probed
fields (wave height, wave period, wind speed, precipitation, cloud cover,
tide height — in source order), either all are null or the first non-null
one is zero; no other leaf field is consulted. -/
theorem c3_empty_iff_first_probed_field_zero (c : SnorkelConditions) :
    app.hasConditionsData c = false ↔
      (app.probedFirst c = none ∨ app.probedFirst c = some 0) := by
  rcases c with ⟨⟨wh, wp, _⟩, ⟨ws, _, _⟩, ⟨th, _⟩, ⟨_, pr, cc⟩, _⟩
  rcases wh with _ | x1 <;> rcases wp with _ | x2 <;> rcases ws with _ | x3 <;>
    rcases pr with _ | x4 <;> rcases cc with _ | x5 <;> rcases th with _ | x6 <;>
    simp [app.hasConditionsData, app.probedFirst, jsCoalesce, List.findSome?]

/-- C2: both tide adapters classify the pivot sample by the same 3-point
rule, the one the spec states in order (boundary → unknown; strict local
max → high; strict local min → low; next above → rising; next below →
falling; flat → unknown); and for any series of length 1 both adapters
classify `unknown`. -/
theorem c2_adapters_share_rule :
    (∀ prev cur next,
      stormglass.getTideState prev cur next =
        specTideRule (prev.map (fun p => p.sg)) cur.sg
          (next.map (fun p => p.sg))) ∧
    (∀ prev cur next,
      worldTides.getTideState prev cur next =
        specTideRule (prev.map (fun p => p.height)) cur.height
          (next.map (fun p => p.height))) ∧
    (∀ p now, stormglass.stateAt [p] now = .unknown) ∧
    (∀ p now, worldTides.stateAt [p] now = .unknown) := by
  refine ⟨fun prev cur next => ?_, fun prev cur next => ?_,
    fun p now => ?_, fun p now => ?_⟩
  · cases prev <;> cases next <;> rfl
  · cases prev <;> cases next <;> rfl
  · simp [stormglass.stateAt, stormglass.pivot, stormglass.sortByTime,
      nearestIdx, nearestScan, stormglass.getTideState]
  · simp [worldTides.stateAt, worldTides.pivot, worldTides.sortByTime,
      nearestIdx, nearestScan, worldTides.getTideState]

/-- C9: the marine request is retried exactly once, with the reduced field
set, precisely when the first request fails with a swell-matching error;
any other marine failure, and any error of the retry itself, propagates
unchanged with no further requests. -/
theorem c9_swell_retry (env : openMeteo.AggEnv) (now : ℤ) :
    openMeteo.marineHourlyReduced = "wave_height,wave_period,wave_direction" ∧
    (∀ s, env.marineFirst = .ok s →
      (openMeteo.fetchConditions env now).1 = [openMeteo.marineHourlyFull]) ∧
    (∀ e, env.marineFirst = .error e → openMeteo.containsSwell e = true →
      (openMeteo.fetchConditions env now).1 =
          [openMeteo.marineHourlyFull, openMeteo.marineHourlyReduced] ∧
        ∀ e2, env.marineSecond = .error e2 →
          (openMeteo.fetchConditions env now).2 = .error e2) ∧
    (∀ e, env.marineFirst = .error e → openMeteo.containsSwell e = false →
      (openMeteo.fetchConditions env now).1 = [openMeteo.marineHourlyFull] ∧
        (openMeteo.fetchConditions env now).2 = .error e) := by
  refine ⟨rfl, fun s hs => ?_, fun e he hsw => ?_, fun e he hsw => ?_⟩
  · simp only [openMeteo.fetchConditions, openMeteo.marineFetch, hs]
    cases env.weather <;>
      cases stormglass.fetchTideConditions env.tideEnv now <;> rfl
  · refine ⟨?_, fun e2 he2 => ?_⟩
    · simp only [openMeteo.fetchConditions, openMeteo.marineFetch, he, hsw,
        if_true]
      cases h2 : env.marineSecond <;>
        [skip; (cases env.weather <;>
          cases stormglass.fetchTideConditions env.tideEnv now)] <;> rfl
    · simp [openMeteo.fetchConditions, openMeteo.marineFetch, he, hsw, he2]
  · constructor <;>
      simp [openMeteo.fetchConditions, openMeteo.marineFetch, he, hsw]

/-- Witness for C9: a swell-rejecting first request followed by a failing
retry — two requests issued, the retry's error propagated. -/
theorem c9_witness :
    (openMeteo.fetchConditions
        ⟨.error "swell_wave_height is not supported", .error "boom",
          .ok openMeteo.emptySeries, ⟨none, .respond true (.parsed none)⟩⟩ 0).1 =
        [openMeteo.marineHourlyFull, openMeteo.marineHourlyReduced] ∧
      (openMeteo.fetchConditions
          ⟨.error "swell_wave_height is not supported", .error "boom",
            .ok openMeteo.emptySeries, ⟨none, .respond true (.parsed none)⟩⟩ 0).2 =
        .error "boom" := by
  have h :=
    (c9_swell_retry
        ⟨.error "swell_wave_height is not supported", .error "boom",
          .ok openMeteo.emptySeries, ⟨none, .respond true (.parsed none)⟩⟩ 0).2.2.1
      "swell_wave_height is not supported" rfl (by decide)
  exact ⟨h.1, h.2 "boom" rfl⟩

/-- Handled tide failures produce "no tide data" rather than an error. -/
theorem fetchTideConditions_of_degradesToAbsent (env : stormglass.SgEnv)
    (now : ℤ) (h : stormglass.degradesToAbsent env = true) :
    stormglass.fetchTideConditions env now = .ok none := by
  rcases env with ⟨apiKey, fetchOutcome⟩
  rcases apiKey with _ | key
  · rfl
  · rcases fetchOutcome with msg | ⟨ok, body⟩
    · simp [stormglass.degradesToAbsent] at h
    · rcases ok with _ | _
      · rfl
      · rcases body with msg | data
        · simp [stormglass.degradesToAbsent] at h
        · rcases data with _ | points
          · rfl
          · simp only [stormglass.degradesToAbsent] at h
            simp at h
            simp [stormglass.fetchTideConditions, h]

/-- C4 fails on the code: with the Stormglass adapter active, an
unparsable tide response body rejects `response.json()` and the error
escapes `Promise.all`, so the whole aggregation fails instead of
degrading to absent tide data. -/
theorem c4_counterexample :
    (openMeteo.fetchConditions
        ⟨.ok openMeteo.emptySeries, .ok openMeteo.emptySeries,
          .ok openMeteo.emptySeries,
          ⟨some "key", .respond true (.unparsable "SyntaxError: Unexpected token")⟩⟩
        0).2 =
      .error "SyntaxError: Unexpected token" := rfl

/-- C4 amended: the tide failures the adapter actually handles — missing
credential, non-success response, missing or empty payload — never abort
the aggregation: given marine and weather successes, `fetchConditions`
still returns a snapshot with tide height null and tide state unknown.
(A rejected tide fetch, or an unparsable tide body in the active
Stormglass adapter, instead propagates and aborts the aggregation.) -/
theorem c4_handled_tide_failure_degrades (env : openMeteo.AggEnv) (now : ℤ)
    (s w : openMeteo.OpenMeteoSeries)
    (hm : env.marineFirst = .ok s) (hw : env.weather = .ok w)
    (ht : stormglass.degradesToAbsent env.tideEnv = true) :
    ∃ r, (openMeteo.fetchConditions env now).2 = .ok r ∧
      r.conditions.tide.heightMeters = none ∧
      r.conditions.tide.state = .unknown := by
  refine ⟨⟨openMeteo.buildConditions s w none now, none⟩, ?_, ?_, ?_⟩
  · simp [openMeteo.fetchConditions, openMeteo.marineFetch, hm, hw,
      fetchTideConditions_of_degradesToAbsent env.tideEnv now ht]
  · simp [openMeteo.buildConditions]
  · simp [openMeteo.buildConditions, openMeteo.getTideState]

/-- Witness for C4 amended: no credential configured, marine and weather
succeed — aggregation succeeds with absent tide data. -/
theorem c4_witness :
    ∃ r,
      (openMeteo.fetchConditions
          ⟨.ok openMeteo.emptySeries, .ok openMeteo.emptySeries,
            .ok openMeteo.emptySeries, ⟨none, .respond true (.parsed none)⟩⟩
          0).2 = .ok r ∧
        r.conditions.tide.heightMeters = none ∧
        r.conditions.tide.state = .unknown :=
  c4_handled_tide_failure_degrades
    ⟨.ok openMeteo.emptySeries, .ok openMeteo.emptySeries,
      .ok openMeteo.emptySeries, ⟨none, .respond true (.parsed none)⟩⟩ 0
    openMeteo.emptySeries openMeteo.emptySeries rfl rfl rfl

/-- The accumulation loop of `combineWeightedRatings`, under positive
weights: it totals exactly the scored entries' weights and weighted
scores. -/
theorem combineWeightedRatings_foldl (entries : List rating.WeightedEntry)
    (hpos : ∀ e ∈ entries, 0 < e.weight) (tw ws : ℚ) :
    entries.foldl
        (fun (acc : ℚ × ℚ) e =>
          match e.tier with
          | none => acc
          | some t =>
            if e.weight ≤ 0 then acc
            else (acc.1 + e.weight, acc.2 + rating.tierScore t * e.weight))
        (tw, ws) =
      (tw + ((rating.scoredEntries entries).map (fun p => p.2)).sum,
       ws + ((rating.scoredEntries entries).map
          (fun p => rating.tierScore p.1 * p.2)).sum) := by
  induction entries generalizing tw ws with
  | nil => simp [rating.scoredEntries]
  | cons e rest ih =>
    have hrest : ∀ x ∈ rest, 0 < x.weight :=
      fun x hx => hpos x (List.mem_cons_of_mem _ hx)
    rcases he : e.tier with _ | t
    · simp only [List.foldl_cons, he]
      rw [ih hrest]
      simp [rating.scoredEntries, List.filterMap_cons, he]
    · have hw : ¬ e.weight ≤ 0 := not_le.mpr (hpos e (List.mem_cons_self _ _))
      simp only [List.foldl_cons, he, if_neg hw]
      rw [ih hrest]
      simp only [rating.scoredEntries, List.filterMap_cons, he, Option.map_some]
      simp [add_assoc]

/-- When no entry is scored, the accumulation loop stays at its origin. -/
theorem combineWeightedRatings_foldl_unscored
    (entries : List rating.WeightedEntry)
    (h : ∀ e ∈ entries, e.tier = none) (tw ws : ℚ) :
    entries.foldl
        (fun (acc : ℚ × ℚ) e =>
          match e.tier with
          | none => acc
          | some t =>
            if e.weight ≤ 0 then acc
            else (acc.1 + e.weight, acc.2 + rating.tierScore t * e.weight))
        (tw, ws) = (tw, ws) := by
  induction entries with
  | nil => rfl
  | cons e rest ih =>
    have he := h e (List.mem_cons_self _ _)
    simp only [List.foldl_cons, he]
    exact ih fun x hx => h x (List.mem_cons_of_mem _ hx)

/-- Under positive weights, a non-empty scored list has positive total
weight. -/
theorem scored_weight_sum_pos (entries : List rating.WeightedEntry)
    (hpos : ∀ e ∈ entries, 0 < e.weight)
    (hne : rating.scoredEntries entries ≠ []) :
    0 < ((rating.scoredEntries entries).map (fun p => p.2)).sum := by
  apply List.sum_pos
  · intro x hx
    rcases List.mem_map.mp hx with ⟨p, hp, rfl⟩
    rcases List.mem_filterMap.mp hp with ⟨e, heMem, heEq⟩
    rcases he : e.tier with _ | t
    · rw [he] at heEq
      exact absurd heEq (by simp)
    · rw [he] at heEq
      have hpe : p = (t, e.weight) := by simpa using heEq.symm
      rw [hpe]
      exact hpos e heMem
  · simpa using hne

/-- C6: the weighted combination assigns poor=0, ok=1, good=2,
excellent=3, averages over the scored entries weighted by importance, and
maps the mean back through the cut points ≥2.5 / ≥1.5 / ≥0.75; with
nothing scored (in particular with every input null) it returns the
neutral `ok`. -/
theorem c6_weighted_combination :
    (rating.tierScore .poor = 0 ∧ rating.tierScore .ok = 1 ∧
        rating.tierScore .good = 2 ∧ rating.tierScore .excellent = 3) ∧
    (∀ entries : List rating.WeightedEntry,
      (∀ e ∈ entries, e.tier = none) →
        rating.combineWeightedRatings entries = .ok) ∧
    (∀ entries : List rating.WeightedEntry,
      (∀ e ∈ entries, 0 < e.weight) →
        rating.combineWeightedRatings entries =
          if rating.scoredEntries entries = [] then .ok
          else
            rating.tierOfAverage
              (((rating.scoredEntries entries).map
                    (fun p => rating.tierScore p.1 * p.2)).sum /
                ((rating.scoredEntries entries).map (fun p => p.2)).sum)) := by
  refine ⟨⟨rfl, rfl, rfl, rfl⟩, fun entries h => ?_, fun entries hpos => ?_⟩
  · simp only [rating.combineWeightedRatings,
      combineWeightedRatings_foldl_unscored entries h 0 0]
    norm_num
  · simp only [rating.combineWeightedRatings,
      combineWeightedRatings_foldl entries hpos 0 0, zero_add]
    by_cases hsc : rating.scoredEntries entries = []
    · simp [hsc]
    · have hwpos := scored_weight_sum_pos entries hpos hsc
      simp only [if_neg hsc, if_neg (ne_of_gt hwpos), rating.tierOfAverage]

/-- Witness for C6 at a concrete mixed entry list (mean 2 → good). -/
theorem c6_witness :
    (∀ e ∈ ([⟨some .excellent, 2⟩, ⟨none, 1⟩, ⟨some .poor, 1⟩] :
        List rating.WeightedEntry), 0 < e.weight) ∧
    rating.combineWeightedRatings
        [⟨some .excellent, 2⟩, ⟨none, 1⟩, ⟨some .poor, 1⟩] =
      if rating.scoredEntries
          [⟨some .excellent, 2⟩, ⟨none, 1⟩, ⟨some .poor, 1⟩] = [] then .ok
      else
        rating.tierOfAverage
          (((rating.scoredEntries
                  [⟨some .excellent, 2⟩, ⟨none, 1⟩, ⟨some .poor, 1⟩]).map
                (fun p => rating.tierScore p.1 * p.2)).sum /
            ((rating.scoredEntries
                  [⟨some .excellent, 2⟩, ⟨none, 1⟩, ⟨some .poor, 1⟩]).map
                (fun p => p.2)).sum) :=
  ⟨by decide, c6_weighted_combination.2.2 _ (by decide)⟩

/-- Monotonicity of `scoreNumeric` for any lower-is-better rule:
a larger value never gets a better tier. -/
theorem scoreNumeric_lower_antitone (r : rating.LowerIsBetterRule)
    (v1 v2 : ℚ) (h : v1 ≤ v2) (t1 t2 : rating.RatingTier)
    (h1 : rating.scoreNumeric (some v1) (.lower r) = some t1)
    (h2 : rating.scoreNumeric (some v2) (.lower r) = some t2) :
    rating.tierScore t2 ≤ rating.tierScore t1 := by
  simp only [rating.scoreNumeric] at h1 h2
  split_ifs at h1 h2 <;> cases h1 <;> cases h2 <;>
    first
      | decide
      | (exfalso; linarith)

/-- Monotonicity of `scoreNumeric` for any higher-is-better rule:
a larger value never gets a worse tier. -/
theorem scoreNumeric_higher_monotone (r : rating.HigherIsBetterRule)
    (v1 v2 : ℚ) (h : v1 ≤ v2) (t1 t2 : rating.RatingTier)
    (h1 : rating.scoreNumeric (some v1) (.higher r) = some t1)
    (h2 : rating.scoreNumeric (some v2) (.higher r) = some t2) :
    rating.tierScore t1 ≤ rating.tierScore t2 := by
  simp only [rating.scoreNumeric] at h1 h2
  split_ifs at h1 h2 <;> cases h1 <;> cases h2 <;>
    first
      | decide
      | (exfalso; linarith)

/-- C7: every numeric threshold rule of the rubric scores monotonically —
under a lower-is-better rule a larger value never gets a better tier,
under a higher-is-better rule never a worse one (tiers compared through
their poor=0 < ok=1 < good=2 < excellent=3 scores). -/
theorem c7_rubric_scoring_monotone :
    ∀ rule ∈ rating.rubricNumericRules, ∀ v1 v2 : ℚ, v1 ≤ v2 →
      ∀ t1 t2 : rating.RatingTier,
        rating.scoreNumeric (some v1) rule = some t1 →
        rating.scoreNumeric (some v2) rule = some t2 →
        (rating.isLowerRule rule = true →
          rating.tierScore t2 ≤ rating.tierScore t1) ∧
        (rating.isLowerRule rule = false →
          rating.tierScore t1 ≤ rating.tierScore t2) := by
  intro rule _ v1 v2 h t1 t2 h1 h2
  rcases rule with r | r
  · exact ⟨fun _ => scoreNumeric_lower_antitone r v1 v2 h t1 t2 h1 h2,
      fun hfalse => by simp [rating.isLowerRule] at hfalse⟩
  · exact ⟨fun htrue => by simp [rating.isLowerRule] at htrue,
      fun _ => scoreNumeric_higher_monotone r v1 v2 h t1 t2 h1 h2⟩

/-- Witness for C7 on the wave-height rule: 0.4 m scores excellent, 2 m
scores poor, and the tier did not improve. -/
theorem c7_witness :
    rating.scoreNumeric (some (2 / 5)) rating.ratingRubric.waves.heightMeters =
        some .excellent ∧
      rating.scoreNumeric (some 2) rating.ratingRubric.waves.heightMeters =
        some .poor ∧
      rating.tierScore .poor ≤ rating.tierScore .excellent := by
  refine ⟨?_, ?_, ?_⟩
  · simp only [rating.ratingRubric, rating.scoreNumeric]
    norm_num
  · simp only [rating.ratingRubric, rating.scoreNumeric]
    norm_num
  · exact
      (c7_rubric_scoring_monotone rating.ratingRubric.waves.heightMeters
            (by simp [rating.rubricNumericRules]) (2 / 5) 2 (by norm_num)
            .excellent .poor
            (by simp only [rating.ratingRubric, rating.scoreNumeric]; norm_num)
            (by simp only [rating.ratingRubric, rating.scoreNumeric]; norm_num)).1
        rfl

/-- Time deltas of indices inside the prefix ignore the appended tail. -/
theorem deltaAt_append_of_lt (pre l : List ℤ) (now : ℤ) (j : ℕ)
    (h : j < pre.length) : deltaAt (pre ++ l) now j = deltaAt pre now j := by
  simp only [deltaAt]
  rw [List.getD_append _ _ _ _ h]

/-- The time delta at the seam index of `pre ++ t :: l` is that of `t`. -/
theorem deltaAt_append_seam (pre : List ℤ) (t : ℤ) (l : List ℤ) (now : ℤ) :
    deltaAt (pre ++ t :: l) now pre.length = |t - now| := by
  simp only [deltaAt]
  rw [List.getD_append_right _ _ _ _ (le_refl pre.length)]
  simp

/-- Invariant of the scan loop: if the carried best index is a
first-encountered minimum over the prefix already walked, the final
result is a first-encountered minimum over the whole list. -/
theorem nearestScan_isFirstNearest (now : ℤ) :
    ∀ (rest pre : List ℤ) (bi : ℕ) (bd : ℤ),
      bi < pre.length →
      bd = deltaAt (pre ++ rest) now bi →
      (∀ j < pre.length, bd ≤ deltaAt (pre ++ rest) now j) →
      (∀ j < bi, bd < deltaAt (pre ++ rest) now j) →
      isFirstNearest (pre ++ rest) now (nearestScan now rest pre.length bi bd) := by
  intro rest
  induction rest with
  | nil =>
    intro pre bi bd hbi hbd hall hstrict
    refine ⟨by simpa using hbi, fun j hj => ?_, fun j hj => ?_⟩
    · exact hbd ▸ hall j (by simpa using hj)
    · exact hbd ▸ hstrict j hj
  | cons t rest ih =>
    intro pre bi bd hbi hbd hall hstrict
    have hsplit : pre ++ t :: rest = (pre ++ [t]) ++ rest := by simp
    have hlen : (pre ++ [t]).length = pre.length + 1 := by simp
    have hdt : deltaAt (pre ++ t :: rest) now pre.length = |t - now| :=
      deltaAt_append_seam pre t rest now
    simp only [nearestScan]
    by_cases hcase : |t - now| < bd
    · rw [if_pos hcase]
      have hres :=
        ih (pre ++ [t]) pre.length (|t - now|)
          (by simp)
          (by rw [← hsplit, hdt])
          (fun j hj => by
            rw [← hsplit]
            rcases Nat.lt_succ_iff_lt_or_eq.mp (by simpa using hj) with hj2 | hj2
            · exact le_trans (le_of_lt hcase) (hall j hj2)
            · rw [hj2, hdt])
          (fun j hj => by
            rw [← hsplit]
            exact lt_of_lt_of_le hcase (hall j (by simpa using hj)))
      rw [hlen] at hres
      rw [hsplit]
      exact hres
    · rw [if_neg hcase]
      have hres :=
        ih (pre ++ [t]) bi bd
          (by simpa using Nat.lt_succ_of_lt hbi)
          (by rw [← hsplit]; exact hbd)
          (fun j hj => by
            rw [← hsplit]
            rcases Nat.lt_succ_iff_lt_or_eq.mp (by simpa using hj) with hj2 | hj2
            · exact hall j hj2
            · rw [hj2, hdt]
              exact not_lt.mp hcase)
          (fun j hj => by
            rw [← hsplit]
            exact hstrict j hj)
      rw [hlen] at hres
      rw [hsplit]
      exact hres

/-- On a non-empty list, `nearestIdx` is the first-encountered index of
minimal absolute time distance to `now`. -/
theorem nearestIdx_isFirstNearest (now : ℤ) (times : List ℤ)
    (h : times ≠ []) : isFirstNearest times now (nearestIdx now times) := by
  match times, h with
  | t0 :: rest, _ =>
    have hres :=
      nearestScan_isFirstNearest now rest [t0] 0 (|t0 - now|)
        (by simp)
        (by simp [deltaAt])
        (fun j hj => by
          have hj0 : j = 0 := by simpa using hj
          rw [hj0]
          simp [deltaAt])
        (fun j hj => absurd hj (Nat.not_lt_zero j))
    simpa [nearestIdx] using hres

/-- C10: nearest-sample selection returns null when either list is empty;
otherwise it selects the index whose timestamp minimizes absolute
distance to now (earliest-found minimum on ties) and returns the value in
that slot — null, with no fallback to any other sample, when that slot is
not a finite number (or out of range). -/
theorem c10_pick_nearest_sample (times : List ℤ) (values : List (Option ℚ))
    (now : ℤ) :
    ((times = [] ∨ values = []) →
      openMeteo.pickNearestValue times values now = none) ∧
    (times ≠ [] → values ≠ [] →
      isFirstNearest times now (nearestIdx now times) ∧
      (∀ q : ℚ, values.get? (nearestIdx now times) = some (some q) →
        openMeteo.pickNearestValue times values now = some q) ∧
      (values.get? (nearestIdx now times) = some none →
        openMeteo.pickNearestValue times values now = none) ∧
      (values.get? (nearestIdx now times) = none →
        openMeteo.pickNearestValue times values now = none)) := by
  constructor
  · rintro (rfl | rfl) <;> simp [openMeteo.pickNearestValue]
  · intro ht hv
    have hte : times.isEmpty = false := by
      simpa using ht
    have hve : values.isEmpty = false := by
      simpa using hv
    refine ⟨nearestIdx_isFirstNearest now times ht, fun q hq => ?_,
      fun hq => ?_, fun hq => ?_⟩ <;>
      rw [List.get?_eq_getElem?] at hq <;>
      simp [openMeteo.pickNearestValue, hte, hve, hq]

/-- Witness for C10: times `[0, 10, 3]` with `now = 2` pick index 2 (the
first minimal delta), whose value slot is non-finite — the result is null
although other samples are finite. -/
theorem c10_witness :
    openMeteo.pickNearestValue [0, 10, 3] [some 1, some 2, none] 2 = none :=
  ((c10_pick_nearest_sample [0, 10, 3] [some 1, some 2, none] 2).2
      (by decide) (by decide)).2.2.1 rfl

/-- The probe loop collects exactly the first three data-bearing
candidates of the remaining list atop those already collected. -/
theorem probeLoop_eq_take_filter
    (probe : GeoPoint → Except String SnorkelConditions) :
    ∀ (l acc : List SpotSuggestion), acc.length < 3 →
      app.probeLoop probe l acc =
        (acc ++ l.filter (app.probeHasData probe)).take 3 := by
  intro l
  induction l with
  | nil =>
    intro acc hacc
    simp only [app.probeLoop, List.filter_nil, List.append_nil]
    exact (List.take_of_length_le (le_of_lt hacc)).symm
  | cons c rest ih =>
    intro acc hacc
    simp only [app.probeLoop]
    rcases hpd : probe c.coordinates with e | conds
    · rw [List.filter_cons_of_neg (by simp [app.probeHasData, hpd])]
      exact ih acc hacc
    · dsimp only
      by_cases hhd : app.hasConditionsData conds = true
      · rw [List.filter_cons_of_pos (by simp [app.probeHasData, hpd, hhd]),
          if_pos hhd]
        by_cases hlen : 3 ≤ (acc ++ [c]).length
        · rw [if_pos hlen]
          have h3 : (acc ++ [c]).length = 3 := by
            have hl : (acc ++ [c]).length = acc.length + 1 := by simp
            omega
          rw [show acc ++ c :: List.filter (app.probeHasData probe) rest =
              (acc ++ [c]) ++ List.filter (app.probeHasData probe) rest by simp,
            ← h3, List.take_left]
        · rw [if_neg hlen,
            ih (acc ++ [c])
              (by
                have hl : (acc ++ [c]).length = acc.length + 1 := by simp
                omega)]
          simp
      · have hhd2 : app.hasConditionsData conds = false := by simpa using hhd
        rw [List.filter_cons_of_neg (by simp [app.probeHasData, hpd, hhd2]),
          if_neg hhd, if_neg (not_le.mpr hacc)]
        exact ih acc hacc

/-- C8: the nearby search equals "take the first 3 data-bearing
candidates of the distance-sorted, origin-excluded candidate list": it
probes in ascending haversine-distance order, skips failed probes and
empty snapshots, stops at 3 successes, keeps nearest-first order, and is
an empty list (not an error) when nothing qualifies. -/
theorem c8_nearby_search (probe : GeoPoint → Except String SnorkelConditions)
    (origin : LocationOption) (fallback : List LocationOption) :
    app.findNearbySpotsWithData probe origin fallback =
      ((app.sortedCandidates origin fallback).filter
          (app.probeHasData probe)).take 3 ∧
    List.Pairwise (fun a b => a.distanceKm ≤ b.distanceKm)
      (app.findNearbySpotsWithData probe origin fallback) := by
  have h1 : app.findNearbySpotsWithData probe origin fallback =
      ((app.sortedCandidates origin fallback).filter
          (app.probeHasData probe)).take 3 := by
    unfold app.findNearbySpotsWithData
    simpa using
      probeLoop_eq_take_filter probe (app.sortedCandidates origin fallback) []
        (by norm_num)
  refine ⟨h1, ?_⟩
  rw [h1]
  have hsorted :
      List.Pairwise (fun a b : SpotSuggestion =>
          decide (a.distanceKm ≤ b.distanceKm) = true)
        (app.sortedCandidates origin fallback) := by
    unfold app.sortedCandidates
    exact
      List.sorted_mergeSort
        (fun a b c hab hbc => by
          simp only [decide_eq_true_eq] at *
          exact le_trans hab hbc)
        (fun a b => by
          simpa [Bool.or_eq_true, decide_eq_true_eq] using
            le_total a.distanceKm b.distanceKm)
        _
  have hsub :
      (((app.sortedCandidates origin fallback).filter
          (app.probeHasData probe)).take 3).Sublist
        (app.sortedCandidates origin fallback) :=
    List.Sublist.trans (List.take_sublist _ _) (List.filter_sublist _)
  exact (hsorted.sublist hsub).imp (fun h => by simpa using h)
